import Mathlib

/-!
Verification of the interaction/geometry core of the FigViewer repository
(`src/fig_viewer/core/plot_item.py`, `mark_spot.py`, `mark_curve.py`).

The Python code is shallowly embedded: coordinates are rationals (the code's
float arithmetic, modelled exactly), numpy arrays become lists, Qt objects
become integer handles, and calls onto the drawing surface are recorded as an
explicit operation trace.  `np.sqrt(d) < c` comparisons are expressed without
square roots via the equivalent condition `0 < c ∧ d < c*c` (both sides of the
code's comparison are nonnegative, and `Real.sqrt` is strictly monotone), so
that every definition stays executable.
-/

namespace FigViewer

/-- A 2-D point with rational coordinates (one (x, y) sample or position). -/
structure Pt where
  x : ℚ
  y : ℚ
deriving DecidableEq, Repr

/-- A plotted series: a stable integer handle standing for the
`pg.PlotDataItem` object, and its data.  `getData()` returning a missing
coordinate array (`any(d is None for d in data)` in
`PlotItem._find_nearest_data_point`) is modelled as `data = none`;
otherwise `data` is the list of zipped (x, y) samples. -/
structure Series where
  handle : ℕ
  data : Option (List Pt)
deriving DecidableEq, Repr

/-- `DataPoint` (mark_spot.py line 16): a NamedTuple
`(plot_data_item, data_index, length)`.  The `plot_data_item` object is
modelled by its integer handle.  Equality of the embedded structure is
componentwise on all three fields, exactly as Python tuple equality of the
NamedTuple. -/
structure DataPoint where
  plot_data_item : ℕ
  data_index : ℕ
  length : ℕ
deriving DecidableEq, Repr

/-- Squared Euclidean distance between two points. -/
def sqDist (p q : Pt) : ℚ :=
  (p.x - q.x) * (p.x - q.x) + (p.y - q.y) * (p.y - q.y)

/-- The condition `√d < c` for `d ≥ 0`, written without square roots:
`0 < c ∧ d < c * c`.  The code compares `np.sqrt(sq) < threshold`; since
`np.sqrt(sq) ≥ 0`, that comparison holds iff the threshold is positive and
`sq < threshold²`. -/
def sqrt_lt (d c : ℚ) : Prop := 0 < c ∧ d < c * c

instance (d c : ℚ) : Decidable (sqrt_lt d c) :=
  inferInstanceAs (Decidable (0 < c ∧ d < c * c))

/-- Index of the first minimal element of a list (`np.argmin`); `0` on `[]`.
Models both the KD-tree nearest-neighbour query (exact nearest in data space)
and `p[np.argmin(d2)]` in `_query_nearest_point`. -/
def argminIdx : List ℚ → ℕ
  | [] => 0
  | [_] => 0
  | v :: rest =>
    let j := argminIdx rest
    if rest.getD j 0 < v then j + 1 else 0

/-- The KD-tree query `self._kd_tree[plot_data_item].query([x, y], k=1, p=2)`
(plot_item.py line 468): index of the data-space nearest sample. -/
def kdQueryIdx (pts : List Pt) (q : Pt) : ℕ :=
  argminIdx (pts.map (fun p => sqDist p q))

/-- Pixel (scene-space) squared distance between the mapped candidate point
and the mapped mouse position (plot_item.py lines 471–475); `toScene` is the
coordinate mapper `getViewBox().mapViewToScene`. -/
def pixSqDist (toScene : Pt → Pt) (p q : Pt) : ℚ :=
  sqDist (toScene p) (toScene q)

/-- The per-series candidate of `_find_nearest_data_point`: the data-space
nearest sample found by the KD-tree, paired with its squared pixel distance
to the mapped mouse position.  (For an empty `pts` the code raises
IndexError at `pts[idx]`; theorems therefore assume present data nonempty.) -/
def candOf (toScene : Pt → Pt) (q : Pt) (s : Series) (pts : List Pt) : ℚ × DataPoint :=
  let idx := kdQueryIdx pts q
  let p := pts.getD idx ⟨0, 0⟩
  (pixSqDist toScene p q, ⟨s.handle, idx, pts.length⟩)

/-- `√d < min_dist` where `min_dist` is the running minimum (`inf` when no
candidate has been kept yet).  Since both are square roots of the stored
squared distances, this is `d < best.1` (strict monotonicity of `√`). -/
def ltRunningMin (d : ℚ) (best : Option (ℚ × DataPoint)) : Prop :=
  match best with
  | none => True
  | some b => d < b.1

instance (d : ℚ) (best : Option (ℚ × DataPoint)) : Decidable (ltRunningMin d best) :=
  match best with
  | none => inferInstanceAs (Decidable True)
  | some b => inferInstanceAs (Decidable (d < b.1))

/-- The loop of `PlotItem._find_nearest_data_point` (plot_item.py lines
456–484), with the running minimum `(min_dist, min_data_point)` made an
explicit accumulator. -/
def findNearestGo (toScene : Pt → Pt) (q : Pt) (thr : ℚ) :
    List Series → Option (ℚ × DataPoint) → Option DataPoint
  | [], best => best.map Prod.snd
  | s :: rest, best =>
    match s.data with
    | none => findNearestGo toScene q thr rest best
    | some pts =>
      let c := candOf toScene q s pts
      if thr < 0 ∧ ltRunningMin c.1 best then
        findNearestGo toScene q thr rest (some c)
      else if sqrt_lt c.1 thr then
        some c.2
      else
        findNearestGo toScene q thr rest best

/-- `PlotItem._find_nearest_data_point` (plot_item.py lines 447–484) over the
searched series list (`[specified_plot_data_item]` or `listDataItems()`). -/
def find_nearest_data_point (toScene : Pt → Pt) (items : List Series) (q : Pt)
    (thr : ℚ) : Option DataPoint :=
  findNearestGo toScene q thr items none

/-- Transcribed from the spec's words (§4.1 / §8): with a threshold ≥ 0 the
query returns the first candidate found, in series iteration order, whose
pixel distance is strictly below the threshold; series with missing data are
skipped. -/
def specFirstWithinThreshold (toScene : Pt → Pt) (q : Pt) (thr : ℚ)
    (items : List Series) : Option DataPoint :=
  items.findSome? (fun s =>
    match s.data with
    | none => none
    | some pts =>
      let c := candOf toScene q s pts
      if sqrt_lt c.1 thr then some c.2 else none)

/-- The candidates (with squared pixel distance) of the non-skipped series,
in iteration order. -/
def candList (toScene : Pt → Pt) (q : Pt) (items : List Series) :
    List (ℚ × DataPoint) :=
  items.filterMap (fun s => s.data.map (fun pts => candOf toScene q s pts))

/-- The earliest element of minimal first component (running strict minimum
scanned left to right: a later element replaces the current one only when
strictly smaller). -/
def minFirst : List (ℚ × DataPoint) → Option (ℚ × DataPoint)
  | [] => none
  | e :: rest =>
    match minFirst rest with
    | none => some e
    | some m => if m.1 < e.1 then some m else some e

/-- One precomputed segment of `_precompute_polyline`: start point, direction
vector, and squared length after the degeneracy clamp
(`len_sq[len_sq < 1e-12] = 1.0`, plot_item.py line 525). -/
structure Seg where
  start : Pt
  vec : Pt
  lenSq : ℚ
deriving DecidableEq, Repr

/-- Builds one entry of the segment table (plot_item.py lines 520–525). -/
def mkSeg (a b : Pt) : Seg :=
  let v : Pt := ⟨b.x - a.x, b.y - a.y⟩
  let l := v.x * v.x + v.y * v.y
  ⟨a, v, if l < 1 / 1000000000000 then 1 else l⟩

/-- Result of `PlotItem._precompute_polyline` (plot_item.py lines 516–532):
a single-sample series is kept as that point, otherwise the per-segment
projection table. -/
inductive Precomputed where
  | singlePoint (p : Pt)
  | segments (segs : List Seg)
deriving DecidableEq, Repr

/-- `PlotItem._precompute_polyline`. -/
def precompute_polyline (pts : List Pt) : Precomputed :=
  match pts with
  | [p] => .singlePoint p
  | _ => .segments (List.zipWith mkSeg pts pts.tail)

/-- Per-segment closest-point projection of `_query_nearest_point`
(plot_item.py lines 544–547): `t = clip(dot(q − start, vec)/lenSq, 0, 1)`,
projected point `start + t·vec`. -/
def projOnSeg (s : Seg) (q : Pt) : Pt :=
  let t0 := ((q.x - s.start.x) * s.vec.x + (q.y - s.start.y) * s.vec.y) / s.lenSq
  let t := min (max t0 0) 1
  ⟨s.start.x + t * s.vec.x, s.start.y + t * s.vec.y⟩

/-- `PlotItem._query_nearest_point` (plot_item.py lines 534–551): the
projected point of minimal squared data-space distance (`p[np.argmin(d2)]`;
for an empty segment table the code raises IndexError, so theorems assume at
least two samples). -/
def query_nearest_point (pre : Precomputed) (q : Pt) : Pt :=
  match pre with
  | .singlePoint p => p
  | .segments segs =>
    let ps := segs.map (fun s => projOnSeg s q)
    let d2 := ps.map (fun p => sqDist p q)
    ps.getD (argminIdx d2) ⟨0, 0⟩

/-- The projected points of a polyline, one per segment, as computed by the
code (with the degeneracy clamp inside `mkSeg`). -/
def projections (pts : List Pt) (q : Pt) : List Pt :=
  (List.zipWith mkSeg pts pts.tail).map (fun s => projOnSeg s q)

/-- Transcribed from the claim's words: the per-segment projection with
`t = clamp(dot(query − start, dir)/lenSq, 0, 1)` where `lenSq` is the true
squared segment length (no degeneracy clamp). -/
def specSegOfClaim (a b : Pt) : Seg :=
  let v : Pt := ⟨b.x - a.x, b.y - a.y⟩
  ⟨a, v, v.x * v.x + v.y * v.y⟩

/-- Transcribed from the claim's words: nearest point on the polyline, taking
the segment of minimal squared data-space distance, with the unclamped
projection formula of `specSegOfClaim`. -/
def specNearestPointOfClaim (pts : List Pt) (q : Pt) : Pt :=
  let ps := (List.zipWith specSegOfClaim pts pts.tail).map (fun s => projOnSeg s q)
  let d2 := ps.map (fun p => sqDist p q)
  ps.getD (argminIdx d2) ⟨0, 0⟩

-- ==================== Drawing-surface trace ====================

/-- One call onto the drawing surface (the external collaborator): items are
integer handles of the created visual objects. -/
inductive SurfaceOp where
  | addItem (item : ℕ)
  | removeItem (item : ℕ)
  | setData (item : ℕ) (p : Pt)
deriving DecidableEq, Repr

-- ==================== HintSpot (mark_spot.py lines 458–492) ====================

/-- Mutable state of `HintSpot`: the held `DataPoint` and the handle of the
transient scatter visual, plus a fresh-handle counter standing for object
allocation. -/
structure HintSpotState where
  data_point : Option DataPoint
  scatter_item : Option ℕ
  nextId : ℕ
deriving DecidableEq, Repr

/-- `HintSpot.clear_hint_spot` (mark_spot.py lines 488–492): remove the
visual if present, reset both cells.  Returns the new state and the trace of
drawing-surface calls. -/
def clear_hint_spot (s : HintSpotState) : HintSpotState × List SurfaceOp :=
  match s.scatter_item with
  | none => ({ s with data_point := none }, [])
  | some it => (⟨none, none, s.nextId⟩, [SurfaceOp.removeItem it])

/-- `HintSpot.update_hint_spot` (mark_spot.py lines 464–486).  `getData`
maps a series handle to its samples (the `plot_data_item.getData()` call). -/
def update_hint_spot (getData : ℕ → List Pt) (s : HintSpotState)
    (dp : Option DataPoint) : HintSpotState × List SurfaceOp :=
  match dp with
  | none => clear_hint_spot s
  | some d =>
    if s.data_point = some d then (s, [])
    else
      let coords := (getData d.plot_data_item).getD d.data_index ⟨0, 0⟩
      match s.scatter_item with
      | none =>
        (⟨some d, some s.nextId, s.nextId + 1⟩, [SurfaceOp.addItem s.nextId])
      | some it =>
        ({ s with data_point := some d }, [SurfaceOp.setData it coords])

-- ==================== MarkSpots (mark_spot.py lines 495–572) ====================

/-- One committed `MarkSpot` object: its object handle (Python identity) and
its bound `DataPoint` (mutated in place by `move_to_pos`). -/
structure MarkSpotM where
  id : ℕ
  data_point : DataPoint
deriving DecidableEq, Repr

/-- Mutable state of `MarkSpots`: the collection, the in-focus object
reference (by handle), and a fresh-handle counter. -/
structure MarkSpotsState where
  mark_spots : List MarkSpotM
  in_focus : Option ℕ
  nextId : ℕ
deriving DecidableEq, Repr

/-- `MarkSpots._find_mark_spot_by_data_point` (mark_spot.py lines 568–572):
first mark whose `data_point` equals the argument (NamedTuple equality). -/
def find_mark_spot_by_data_point (s : MarkSpotsState) (d : DataPoint) :
    Option MarkSpotM :=
  s.mark_spots.find? (fun m => m.data_point = d)

/-- `MarkSpots.update_mark_spot` (mark_spot.py lines 501–517). -/
def update_mark_spot (s : MarkSpotsState) (dp : Option DataPoint) :
    MarkSpotsState × List SurfaceOp :=
  match dp with
  | none => (s, [])
  | some d =>
    match find_mark_spot_by_data_point s d with
    | some m => ({ s with in_focus := some m.id }, [])
    | none =>
      let m : MarkSpotM := ⟨s.nextId, d⟩
      (⟨s.mark_spots ++ [m], some m.id, s.nextId + 1⟩, [SurfaceOp.addItem m.id])

/-- `MarkSpots.discard_mark_spot` (mark_spot.py lines 519–527): remove the
first mark of equal `DataPoint` from the surface and the collection
(`list.remove` removes by object identity, i.e. handle), then set
`in_focus_mark_spot = None` unconditionally. -/
def discard_mark_spot (s : MarkSpotsState) (dp : Option DataPoint) :
    MarkSpotsState × List SurfaceOp :=
  match dp with
  | none => (s, [])
  | some d =>
    match find_mark_spot_by_data_point s d with
    | none => (s, [])
    | some m =>
      (⟨s.mark_spots.eraseP (fun x => x.id = m.id), none, s.nextId⟩,
       [SurfaceOp.removeItem m.id])

/-- `MarkSpots.clear_mark_spot` (mark_spot.py lines 529–533). -/
def clear_mark_spot (s : MarkSpotsState) : MarkSpotsState × List SurfaceOp :=
  (⟨[], none, s.nextId⟩, s.mark_spots.map (fun m => SurfaceOp.removeItem m.id))

/-- `MarkSpots.move_mark_spot_forward` (mark_spot.py lines 535–546): re-point
the in-focus mark to `max(data_index - 1, 0)` in its series (ℕ subtraction
truncates at 0, matching the `max`). -/
def move_mark_spot_forward (s : MarkSpotsState) : MarkSpotsState :=
  match s.in_focus with
  | none => s
  | some fid =>
    match s.mark_spots.find? (fun m => m.id = fid) with
    | none => s
    | some m =>
      let d := m.data_point
      let moved : MarkSpotM := ⟨m.id, ⟨d.plot_data_item, d.data_index - 1, d.length⟩⟩
      { s with mark_spots := s.mark_spots.map (fun x => if x.id = fid then moved else x) }

/-- `MarkSpots.move_mark_spot_backward` (mark_spot.py lines 548–559):
re-point the in-focus mark to `min(data_index + 1, length - 1)`. -/
def move_mark_spot_backward (s : MarkSpotsState) : MarkSpotsState :=
  match s.in_focus with
  | none => s
  | some fid =>
    match s.mark_spots.find? (fun m => m.id = fid) with
    | none => s
    | some m =>
      let d := m.data_point
      let moved : MarkSpotM :=
        ⟨m.id, ⟨d.plot_data_item, min (d.data_index + 1) (d.length - 1), d.length⟩⟩
      { s with mark_spots := s.mark_spots.map (fun x => if x.id = fid then moved else x) }

/-- `MarkSpots.drag_event` (mark_spot.py lines 561–566): re-resolve the
nearest data point to the drag position constrained to the dragged mark's own
series (default threshold −1, global nearest within the series), and move the
mark there when found.  `fid` is the dragged `MarkSpot` object, `getData` the
series environment. -/
def drag_event (toScene : Pt → Pt) (getData : ℕ → Option (List Pt))
    (s : MarkSpotsState) (fid : ℕ) (pos : Pt) : MarkSpotsState :=
  match s.mark_spots.find? (fun m => m.id = fid) with
  | none => s
  | some m =>
    let h := m.data_point.plot_data_item
    match find_nearest_data_point toScene [⟨h, getData h⟩] pos (-1) with
    | none => s
    | some nd =>
      let moved : MarkSpotM := ⟨m.id, nd⟩
      { s with mark_spots := s.mark_spots.map (fun x => if x.id = fid then moved else x) }

/-- The implicit `MarkSpots` invariant under scrutiny: no two marks in the
collection hold equal `DataPoint`s, and the in-focus reference, when set, is
a member of the collection. -/
def markInvariant (s : MarkSpotsState) : Prop :=
  (s.mark_spots.map (fun m => m.data_point)).Nodup ∧
  ∀ fid, s.in_focus = some fid → fid ∈ s.mark_spots.map (fun m => m.id)

-- ==================== Mode switching (plot_item.py lines 327–332) ====================

/-- `PlotItem.mouse_mode` values. -/
inductive MouseMode where
  | pan | zoom | select | grab
deriving DecidableEq, Repr

/-- The viewbox mouse-drag behaviour (`ViewBox.RectMode` / `ViewBox.PanMode`). -/
inductive VBMouseMode where
  | RectMode | PanMode
deriving DecidableEq, Repr

/-- State of `HintCurve` (mark_curve.py lines 43–75): the held series handle
and the handles of the sampled hint visuals. -/
structure HintCurveState where
  plot_data_item : Option ℕ
  scatter_items : List ℕ
deriving DecidableEq, Repr

/-- The interaction-relevant state of one `PlotItem`: interaction mode, the
viewbox drag behaviour, and the four hint/mark state machines
(`MarkCurves.mark_curves` is a dict keyed by series handle; its key set is
kept). -/
structure PlotState where
  mouse_mode : MouseMode
  vb_mode : VBMouseMode
  hint_spot : HintSpotState
  mark_spots : MarkSpotsState
  hint_curve : HintCurveState
  mark_curves : List ℕ
deriving DecidableEq, Repr

/-- `set_mouse_mode` (plot_item.py lines 327–332, inside `getContextMenus`):
stores the new mode and sets the viewbox drag behaviour — `RectMode` for
zoom, `PanMode` otherwise.  It touches nothing else. -/
def set_mouse_mode (s : PlotState) (mode : MouseMode) : PlotState :=
  { s with
    mouse_mode := mode
    vb_mode := if mode = MouseMode.zoom then VBMouseMode.RectMode else VBMouseMode.PanMode }

-- ==================== Interaction dispatcher (plot_item.py lines 225–323) ====================

/-- Mouse buttons of the click table. -/
inductive MouseButton where
  | left | right | middle
deriving DecidableEq, Repr

/-- The `event.modifiers()` value, as a single enum (the table stores one
modifier flag per entry). -/
inductive Modifier where
  | noModifier | ctrl | shift
deriving DecidableEq, Repr

/-- Key codes appearing in the key-press table. -/
inductive KeyCode where
  | keyLeft | keyUp | keyRight | keyDown | other (code : ℕ)
deriving DecidableEq, Repr

/-- The `move_actions` dict of `_process_hover_event` (plot_item.py lines
249–254), looked up by mode with default `None`. -/
def moveActionTable (mode : MouseMode) : Option String :=
  match mode with
  | .pan => some "renew_hint_spot"
  | .select => some "renew_hint_spot"
  | .grab => some "renew_hint_curve"
  | .zoom => none

/-- The `click_actions` dict of `_process_click_event` (plot_item.py lines
282–295), looked up by `(mouse_mode, button, is_double, modifiers)` with
default `None`. -/
def clickActionTable (mode : MouseMode) (button : MouseButton) (double : Bool)
    (mods : Modifier) : Option String :=
  match mode, button, double, mods with
  | .pan, .left, false, .noModifier => some "renew_mark_spot"
  | .pan, .left, true, .noModifier => some "discard_mark_spot"
  | .select, .left, false, .noModifier => some "add_mark_spot"
  | .select, .left, true, .noModifier => some "discard_mark_spot"
  | .grab, .left, false, .noModifier => some "renew_selected_curve"
  | .grab, .left, false, .ctrl => some "update_selected_curve"
  | .pan, .right, false, .noModifier => some "raise_context_menu"
  | .zoom, .right, false, .noModifier => some "raise_context_menu"
  | .select, .right, false, .noModifier => some "raise_context_menu"
  | .grab, .right, false, .noModifier => some "raise_context_curve_menu"
  | _, _, _, _ => none

/-- The `press_actions` dict of `_process_key_event` (plot_item.py lines
228–235). -/
def pressActionTable (mode : MouseMode) (key : KeyCode) : Option String :=
  match mode, key with
  | .select, .keyLeft => some "move_mark_spot_left"
  | .select, .keyUp => some "move_mark_spot_left"
  | .select, .keyRight => some "move_mark_spot_right"
  | .select, .keyDown => some "move_mark_spot_right"
  | _, _ => none

/-- A Python runtime error raised while a handler body executes. -/
inductive PyError where
  | attributeError (cls attr : String)
  | typeError (method : String)
deriving DecidableEq, Repr

/-- The method names defined on class `HintCurve` in mark_curve.py (lines
43–75): `update` and `clear` (besides `__init__`).  Python attribute lookup
of any other name raises AttributeError. -/
def hintCurveMethodNames : List String := ["update", "clear"]

/-- Attribute lookup plus call of a `HintCurve` method, modelling Python's
dynamic dispatch: an undefined attribute raises AttributeError. -/
def callHintCurveMethod (name : String) : Except PyError Unit :=
  if name ∈ hintCurveMethodNames then Except.ok () else
    Except.error (PyError.attributeError "HintCurve" name)

/-- Number of parameters besides `self` accepted by
`MarkCurves.toggle_mark_curve` (mark_curve.py line 115): it takes none. -/
def toggleMarkCurveParamCount : ℕ := 0

/-- Calling `MarkCurves.toggle_mark_curve` with `argCount` positional
arguments: an arity mismatch raises TypeError. -/
def callToggleMarkCurve (argCount : ℕ) : Except PyError Unit :=
  if argCount = toggleMarkCurveParamCount then Except.ok () else
    Except.error (PyError.typeError "toggle_mark_curve")

/-- `PlotItem._process_hover_event` (plot_item.py lines 246–277), tracked for
raised errors only.  The `renew_hint_spot` branch calls
`HintSpot.update_hint_spot`, which exists; the `renew_hint_curve` branch
executes `self._hint_curve.update_hint_curve(plot_data_item)`
(plot_item.py line 277). -/
def process_hover_event (mode : MouseMode) : Except PyError Unit :=
  match moveActionTable mode with
  | none => Except.ok ()
  | some "renew_hint_spot" => Except.ok ()
  | some "renew_hint_curve" => callHintCurveMethod "update_hint_curve"
  | some _ => Except.ok ()

/-- `PlotItem._process_click_event` (plot_item.py lines 279–323), tracked for
raised errors only.  The `update_selected_curve` branch executes
`self._mark_curves.toggle_mark_curve(self._hint_curve.plot_data_item)`
(plot_item.py line 317), one positional argument; all other matched handlers
call methods that exist with matching arity. -/
def process_click_event (mode : MouseMode) (button : MouseButton)
    (double : Bool) (mods : Modifier) : Except PyError Unit :=
  match clickActionTable mode button double mods with
  | none => Except.ok ()
  | some "update_selected_curve" => callToggleMarkCurve 1
  | some _ => Except.ok ()

/-- `PlotItem._process_key_event` (plot_item.py lines 225–244), tracked for
raised errors only: both matched handlers call existing `MarkSpots` methods
with matching arity. -/
def process_key_event (mode : MouseMode) (key : KeyCode) : Except PyError Unit :=
  match pressActionTable mode key with
  | none => Except.ok ()
  | some _ => Except.ok ()

-- ==================== Double-click lock (plot_item.py lines 213–223) ====================

/-- Events reaching `PlotItem.mouseClickEvent`, plus the firing of the
one-shot `QTimer.singleShot(QApplication.doubleClickInterval(), ...)` that
clears the lock at the end of the platform double-click interval. -/
inductive ClickEvent where
  | press (double : Bool)
  | lockTimerFired
deriving DecidableEq, Repr

/-- The `_mouse_double_click_lock` cell. -/
structure ClickLockState where
  lock : Bool
deriving DecidableEq, Repr

/-- One step of `PlotItem.mouseClickEvent` (plot_item.py lines 213–223).  The
returned Bool tells whether `_process_click_event` runs for this event (an
action may fire); a locked click returns early without any action. -/
def mouseClickEventStep (s : ClickLockState) (e : ClickEvent) :
    ClickLockState × Bool :=
  match e with
  | .lockTimerFired => (⟨false⟩, false)
  | .press d =>
    if s.lock then (s, false)
    else (⟨d⟩, true)

/-- Runs a sequence of click events, collecting which of them were processed. -/
def runClickEvents (s : ClickLockState) :
    List ClickEvent → ClickLockState × List Bool
  | [] => (s, [])
  | e :: rest =>
    let step := mouseClickEventStep s e
    let tail := runClickEvents step.1 rest
    (tail.1, step.2 :: tail.2)

-- ==================== Helper lemmas ====================

/-- While the double-click lock is set, every pressed click leaves the state
unchanged and is not processed, as long as the clearing timer has not fired. -/
lemma runClickEvents_locked (es : List ClickEvent) (s : ClickLockState)
    (h : s.lock = true) (hes : ∀ e ∈ es, e ≠ ClickEvent.lockTimerFired) :
    (∀ b ∈ (runClickEvents s es).2, b = false) ∧ (runClickEvents s es).1 = s := by
  induction es with
  | nil => simp [runClickEvents]
  | cons e rest ih =>
    cases e with
    | lockTimerFired => exact absurd rfl (hes _ (List.mem_cons_self _ _))
    | press d =>
      have hstep : mouseClickEventStep s (ClickEvent.press d) = (s, false) := by
        simp [mouseClickEventStep, h]
      have ih' := ih (fun e he => hes e (List.mem_cons_of_mem _ he))
      constructor
      · intro b hb
        simp only [runClickEvents, hstep] at hb
        rcases List.mem_cons.mp hb with hb | hb
        · exact hb
        · exact ih'.1 b hb
      · simp only [runClickEvents, hstep]
        exact ih'.2

-- ==================== Claims ====================

/-- C4: matched grab-mode handlers raise.  The grab-mode hover action
executes `self._hint_curve.update_hint_curve(...)` although class `HintCurve`
defines no such method (AttributeError), and the (grab, left, single, ctrl)
handler calls `MarkCurves.toggle_mark_curve` with one positional argument
although the method takes none besides `self` (TypeError); unmatched
combinations and key events are indeed no-ops that never raise. -/
theorem claim_C4_grab_handlers_raise :
    process_hover_event MouseMode.grab =
      Except.error (PyError.attributeError "HintCurve" "update_hint_curve") ∧
    process_click_event MouseMode.grab MouseButton.left false Modifier.ctrl =
      Except.error (PyError.typeError "toggle_mark_curve") ∧
    (∀ mode, mode ≠ MouseMode.grab → process_hover_event mode = Except.ok ()) ∧
    (∀ mode button double mods, (mode, button, double, mods) ≠
        (MouseMode.grab, MouseButton.left, false, Modifier.ctrl) →
      process_click_event mode button double mods = Except.ok ()) ∧
    (∀ mode key, process_key_event mode key = Except.ok ()) := by
  refine ⟨rfl, rfl, ?_, ?_, ?_⟩
  · intro mode hm
    cases mode <;> first | rfl | exact absurd rfl hm
  · intro mode button double mods hne
    cases mode <;> cases button <;> cases double <;> cases mods <;>
      first | rfl | exact absurd rfl hne
  · intro mode key
    cases mode <;> cases key <;> rfl

/-- C5, counterexample: switching from pan to grab — a transition outside
the declared compatible set — leaves a nonempty mark collection and a held
hint spot fully intact: `set_mouse_mode` clears nothing. -/
def exPlotState : PlotState :=
  { mouse_mode := MouseMode.pan
    vb_mode := VBMouseMode.PanMode
    hint_spot := ⟨some ⟨0, 0, 2⟩, some 5, 6⟩
    mark_spots := ⟨[⟨0, ⟨0, 1, 2⟩⟩], some 0, 1⟩
    hint_curve := ⟨none, []⟩
    mark_curves := [] }

/-- C5: switching the interaction mode from pan to grab does not clear the
hint and mark state, contrary to the claimed clearing behaviour. -/
theorem claim_C5_counterexample :
    exPlotState.mouse_mode = MouseMode.pan ∧
    (set_mouse_mode exPlotState MouseMode.grab).mark_spots = exPlotState.mark_spots ∧
    exPlotState.mark_spots.mark_spots ≠ [] ∧
    (set_mouse_mode exPlotState MouseMode.grab).hint_spot = exPlotState.hint_spot ∧
    exPlotState.hint_spot.data_point ≠ none := by
  refine ⟨rfl, rfl, ?_, rfl, ?_⟩ <;> decide

/-- C5 (amended): a mode switch via `set_mouse_mode` never clears any hint or
mark state, for any transition; it stores the new mode and always updates the
viewbox drag behaviour — `RectMode` for zoom and `PanMode` otherwise. -/
theorem claim_C5_mode_switch (s : PlotState) (mode : MouseMode) :
    (set_mouse_mode s mode).hint_spot = s.hint_spot ∧
    (set_mouse_mode s mode).mark_spots = s.mark_spots ∧
    (set_mouse_mode s mode).hint_curve = s.hint_curve ∧
    (set_mouse_mode s mode).mark_curves = s.mark_curves ∧
    (set_mouse_mode s mode).mouse_mode = mode ∧
    (set_mouse_mode s mode).vb_mode =
      (if mode = MouseMode.zoom then VBMouseMode.RectMode else VBMouseMode.PanMode) :=
  ⟨rfl, rfl, rfl, rfl, rfl, rfl⟩

/-- C6, counterexample state: two marks with distinct `DataPoint`s, the
second one (handle 1) in focus. -/
def exMarkSpots : MarkSpotsState :=
  ⟨[⟨0, ⟨0, 0, 2⟩⟩, ⟨1, ⟨0, 1, 2⟩⟩], some 1, 2⟩

/-- C6: discarding the mark of handle 0 while the distinct mark of handle 1
is in focus still resets the in-focus reference to `None`, contrary to the
claim that it is unchanged when a different mark was in focus. -/
theorem claim_C6_counterexample :
    exMarkSpots.in_focus = some 1 ∧
    find_mark_spot_by_data_point exMarkSpots ⟨0, 0, 2⟩ = some ⟨0, ⟨0, 0, 2⟩⟩ ∧
    (0 : ℕ) ≠ 1 ∧
    (discard_mark_spot exMarkSpots (some ⟨0, 0, 2⟩)).1.in_focus = none := by
  refine ⟨rfl, by decide, by decide, by decide⟩

/-- C6 (amended): when a matching mark exists, `discard_mark_spot` removes
exactly that mark (the first of equal `DataPoint`, which is a member of the
collection) from the drawing surface and the collection, and it resets the
in-focus reference unconditionally — also when a different mark was in
focus. -/
theorem claim_C6_discard (s : MarkSpotsState) (d : DataPoint) (m : MarkSpotM)
    (h : find_mark_spot_by_data_point s d = some m) :
    (discard_mark_spot s (some d)).1.mark_spots =
      s.mark_spots.eraseP (fun x => x.id = m.id) ∧
    (discard_mark_spot s (some d)).2 = [SurfaceOp.removeItem m.id] ∧
    (discard_mark_spot s (some d)).1.in_focus = none ∧
    m.data_point = d ∧ m ∈ s.mark_spots := by
  have h' : List.find? (fun x => decide (x.data_point = d)) s.mark_spots = some m := h
  have hmem : m ∈ s.mark_spots := List.mem_of_find?_eq_some h'
  have hpred0 := List.find?_some h'
  have hpred : m.data_point = d := by simpa using hpred0
  refine ⟨?_, ?_, ?_, hpred, hmem⟩ <;>
    simp [discard_mark_spot, h]

/-- C6, witness: the amended discard behaviour at the counterexample state. -/
theorem claim_C6_witness :
    find_mark_spot_by_data_point exMarkSpots ⟨0, 0, 2⟩ = some ⟨0, ⟨0, 0, 2⟩⟩ ∧
    ((discard_mark_spot exMarkSpots (some ⟨0, 0, 2⟩)).1.mark_spots =
      exMarkSpots.mark_spots.eraseP (fun x => x.id = 0) ∧
    (discard_mark_spot exMarkSpots (some ⟨0, 0, 2⟩)).2 = [SurfaceOp.removeItem 0] ∧
    (discard_mark_spot exMarkSpots (some ⟨0, 0, 2⟩)).1.in_focus = none ∧
    (⟨0, ⟨0, 0, 2⟩⟩ : MarkSpotM).data_point = ⟨0, 0, 2⟩ ∧
    (⟨0, ⟨0, 0, 2⟩⟩ : MarkSpotM) ∈ exMarkSpots.mark_spots) :=
  ⟨by decide, claim_C6_discard exMarkSpots ⟨0, 0, 2⟩ ⟨0, ⟨0, 0, 2⟩⟩ (by decide)⟩

/-- C8: two `DataPoint`s with equal series handle and index but different
stored lengths are *not* equal — the length field does participate in the
NamedTuple's componentwise equality, contrary to the claim. -/
theorem claim_C8_counterexample :
    (⟨0, 0, 5⟩ : DataPoint).plot_data_item = (⟨0, 0, 6⟩ : DataPoint).plot_data_item ∧
    (⟨0, 0, 5⟩ : DataPoint).data_index = (⟨0, 0, 6⟩ : DataPoint).data_index ∧
    (⟨0, 0, 5⟩ : DataPoint) ≠ (⟨0, 0, 6⟩ : DataPoint) := by
  refine ⟨rfl, rfl, by decide⟩

/-- C8 (amended): `DataPoint` equality is componentwise on all three fields —
series handle, index, and stored series length. -/
theorem claim_C8_equality (a b : DataPoint) :
    a = b ↔ a.plot_data_item = b.plot_data_item ∧
      a.data_index = b.data_index ∧ a.length = b.length := by
  constructor
  · intro h; subst h; exact ⟨rfl, rfl, rfl⟩
  · rintro ⟨h1, h2, h3⟩
    cases a; cases b
    simp_all

/-- C9: a double-click arriving with the lock clear is processed and sets the
lock; until the one-shot timer scheduled for the platform double-click
interval fires, every further click event (in particular every single click)
is suppressed — no second action fires. -/
theorem claim_C9_double_click_lock (s : ClickLockState) (h : s.lock = false)
    (es : List ClickEvent) (hes : ∀ e ∈ es, e ≠ ClickEvent.lockTimerFired) :
    (mouseClickEventStep s (ClickEvent.press true)).2 = true ∧
    (mouseClickEventStep s (ClickEvent.press true)).1.lock = true ∧
    ∀ b ∈ (runClickEvents (mouseClickEventStep s (ClickEvent.press true)).1 es).2,
      b = false := by
  have hstep : mouseClickEventStep s (ClickEvent.press true) = (⟨true⟩, true) := by
    simp [mouseClickEventStep, h]
  refine ⟨by rw [hstep], by rw [hstep], ?_⟩
  rw [hstep]
  exact (runClickEvents_locked es ⟨true⟩ rfl hes).1

/-- C9, witness: a double-click from the unlocked state followed by one
single click fires no second action. -/
theorem claim_C9_witness :
    (⟨false⟩ : ClickLockState).lock = false ∧
    (∀ e ∈ [ClickEvent.press false], e ≠ ClickEvent.lockTimerFired) ∧
    ((mouseClickEventStep ⟨false⟩ (ClickEvent.press true)).2 = true ∧
    (mouseClickEventStep ⟨false⟩ (ClickEvent.press true)).1.lock = true ∧
    ∀ b ∈ (runClickEvents (mouseClickEventStep ⟨false⟩ (ClickEvent.press true)).1
        [ClickEvent.press false]).2, b = false) :=
  ⟨rfl, by decide, claim_C9_double_click_lock ⟨false⟩ rfl [ClickEvent.press false] (by decide)⟩

/-- C7: `HintSpot` visual churn.  A second `update_hint_spot` with an equal
`DataPoint` is a no-op (state unchanged, no surface call, so exactly one
visual creation across the two calls); `update_hint_spot(None)` after a held
hint removes the visual exactly once; a repeated clear — and an update(None)
with nothing held — performs no removal. -/
theorem claim_C7_hint_spot (getData : ℕ → List Pt) :
    (∀ s d, update_hint_spot getData (update_hint_spot getData s (some d)).1 (some d) =
      ((update_hint_spot getData s (some d)).1, [])) ∧
    (∀ s d, s.scatter_item = none → s.data_point ≠ some d →
      (update_hint_spot getData s (some d)).2 = [SurfaceOp.addItem s.nextId]) ∧
    (∀ s it, s.scatter_item = some it →
      update_hint_spot getData s none =
        (⟨none, none, s.nextId⟩, [SurfaceOp.removeItem it])) ∧
    (∀ s, s.scatter_item = none → (update_hint_spot getData s none).2 = []) ∧
    (∀ s, clear_hint_spot (clear_hint_spot s).1 = ((clear_hint_spot s).1, [])) := by
  refine ⟨?_, ?_, ?_, ?_, ?_⟩
  · intro s d
    by_cases h : s.data_point = some d
    · simp [update_hint_spot, h]
    · cases hs : s.scatter_item <;> simp [update_hint_spot, h, hs]
  · intro s d h1 h2
    simp [update_hint_spot, h1, h2]
  · intro s it h
    simp [update_hint_spot, clear_hint_spot, h]
  · intro s h
    simp [update_hint_spot, clear_hint_spot, h]
  · intro s
    cases hs : s.scatter_item <;> simp [clear_hint_spot, hs]

/-- C7, witness: clearing a held hint removes its visual exactly once. -/
theorem claim_C7_witness :
    (⟨some ⟨0, 0, 2⟩, some 7, 8⟩ : HintSpotState).scatter_item = some 7 ∧
    update_hint_spot (fun _ => []) ⟨some ⟨0, 0, 2⟩, some 7, 8⟩ none =
      (⟨none, none, 8⟩, [SurfaceOp.removeItem 7]) :=
  ⟨rfl, (claim_C7_hint_spot (fun _ => [])).2.2.1 ⟨some ⟨0, 0, 2⟩, some 7, 8⟩ 7 rfl⟩

/-- Replacing, in place, the mark of a given handle by one with the same
handle keeps every handle of the collection present. -/
lemma mem_map_id_replace {marks : List MarkSpotM} {fid g : ℕ} {moved : MarkSpotM}
    (h : moved.id = fid) (hg : g ∈ marks.map (fun m => m.id)) :
    g ∈ (marks.map (fun x => if x.id = fid then moved else x)).map (fun m => m.id) := by
  rw [List.map_map]
  obtain ⟨x, hx, hxg⟩ := List.mem_map.mp hg
  apply List.mem_map.mpr
  refine ⟨x, hx, ?_⟩
  simp only [Function.comp]
  by_cases hxf : x.id = fid
  · rw [if_pos hxf, h, ← hxf, hxg]
  · rw [if_neg hxf, hxg]

/-- C10, counterexample state: marks (with distinct handles 0 and 1) at
indices 1 and 2 of the same series of length 3; the mark at index 2 is in
focus. -/
def exMoveState : MarkSpotsState :=
  ⟨[⟨0, ⟨0, 1, 3⟩⟩, ⟨1, ⟨0, 2, 3⟩⟩], some 1, 2⟩

/-- C10: stepping the in-focus mark forward re-points it from index 2 to
index 1, producing two marks in the collection with equal `DataPoint`s — the
claimed invariant is not preserved by `move_mark_spot_forward`. -/
theorem claim_C10_counterexample :
    markInvariant exMoveState ∧
    ¬ markInvariant (move_mark_spot_forward exMoveState) := by
  constructor
  · refine ⟨by decide, ?_⟩
    intro fid h
    simp only [exMoveState, Option.some.injEq] at h
    subst h
    decide
  · intro hinv
    have hmove : move_mark_spot_forward exMoveState =
        ⟨[⟨0, ⟨0, 1, 3⟩⟩, ⟨1, ⟨0, 1, 3⟩⟩], some 1, 2⟩ := by rfl
    rw [hmove] at hinv
    exact absurd hinv.1 (by decide)

/-- C10 (amended): `update_mark_spot`, `discard_mark_spot` and
`clear_mark_spot` preserve the full invariant (pairwise-distinct
`DataPoint`s and an in-focus reference that is a collection member);
`move_mark_spot_forward`, `move_mark_spot_backward` and `drag_event`
preserve the in-focus-membership part, but may produce two marks with equal
`DataPoint`s. -/
theorem claim_C10_invariant (toScene : Pt → Pt) (getData : ℕ → Option (List Pt))
    (s : MarkSpotsState) (dp : Option DataPoint) (fid : ℕ) (pos : Pt)
    (hinv : markInvariant s) :
    markInvariant (update_mark_spot s dp).1 ∧
    markInvariant (discard_mark_spot s dp).1 ∧
    markInvariant (clear_mark_spot s).1 ∧
    (∀ g, (move_mark_spot_forward s).in_focus = some g →
      g ∈ (move_mark_spot_forward s).mark_spots.map (fun m => m.id)) ∧
    (∀ g, (move_mark_spot_backward s).in_focus = some g →
      g ∈ (move_mark_spot_backward s).mark_spots.map (fun m => m.id)) ∧
    (∀ g, (drag_event toScene getData s fid pos).in_focus = some g →
      g ∈ (drag_event toScene getData s fid pos).mark_spots.map (fun m => m.id)) := by
  obtain ⟨hnd, hfoc⟩ := hinv
  refine ⟨?_, ?_, ?_, ?_, ?_, ?_⟩
  · -- update_mark_spot
    match dp with
    | none => exact ⟨hnd, hfoc⟩
    | some d =>
      cases hf : find_mark_spot_by_data_point s d with
      | some m =>
        have hm : m ∈ s.mark_spots := List.mem_of_find?_eq_some hf
        refine ⟨?_, ?_⟩
        · simpa [update_mark_spot, hf] using hnd
        · intro g hg
          simp only [update_mark_spot, hf, Option.some.injEq] at hg
          subst hg
          simpa [update_mark_spot, hf] using List.mem_map_of_mem (fun m => m.id) hm
      | none =>
        have hnotin : ∀ x ∈ s.mark_spots, ¬ x.data_point = d := by
          intro x hx
          have := List.find?_eq_none.mp hf x hx
          simpa using this
        refine ⟨?_, ?_⟩
        · simp only [update_mark_spot, hf, List.map_append, List.map_cons, List.map_nil]
          rw [List.nodup_append]
          refine ⟨hnd, List.nodup_singleton _, ?_⟩
          intro a ha hb
          simp only [List.mem_singleton] at hb
          subst hb
          obtain ⟨x, hx, hxa⟩ := List.mem_map.mp ha
          exact hnotin x hx hxa
        · intro g hg
          simp only [update_mark_spot, hf, Option.some.injEq] at hg
          subst hg
          simp [update_mark_spot, hf]
  · -- discard_mark_spot
    match dp with
    | none => exact ⟨hnd, hfoc⟩
    | some d =>
      cases hf : find_mark_spot_by_data_point s d with
      | none => exact ⟨by simpa [discard_mark_spot, hf] using hnd,
          by intro g hg; simp only [discard_mark_spot, hf] at hg ⊢; exact hfoc g hg⟩
      | some m =>
        refine ⟨?_, ?_⟩
        · have hsub : (s.mark_spots.eraseP (fun x => x.id = m.id)).Sublist s.mark_spots :=
            List.eraseP_sublist _
          have := (hsub.map (fun m => m.data_point)).nodup hnd
          simpa [discard_mark_spot, hf] using this
        · intro g hg
          simp [discard_mark_spot, hf] at hg
  · -- clear_mark_spot
    exact ⟨by simp [clear_mark_spot], by intro g hg; simp [clear_mark_spot] at hg⟩
  · -- move_mark_spot_forward keeps the in-focus reference in the collection
    intro g hg
    cases hF : s.in_focus with
    | none =>
      simp only [move_mark_spot_forward, hF] at hg
      exact Option.noConfusion hg
    | some f0 =>
      cases hfind : s.mark_spots.find? (fun m => m.id = f0) with
      | none =>
        simp only [move_mark_spot_forward, hF, hfind] at hg ⊢
        exact hfoc g (hF ▸ hg)
      | some m =>
        have hid : m.id = f0 := by
          have h' : List.find? (fun x => decide (x.id = f0)) s.mark_spots = some m := hfind
          have := List.find?_some h'
          simpa using this
        simp only [move_mark_spot_forward, hF, hfind, Option.some.injEq] at hg
        subst hg
        simp only [move_mark_spot_forward, hF, hfind]
        exact mem_map_id_replace hid (hfoc f0 hF)
  · -- move_mark_spot_backward likewise
    intro g hg
    cases hF : s.in_focus with
    | none =>
      simp only [move_mark_spot_backward, hF] at hg
      exact Option.noConfusion hg
    | some f0 =>
      cases hfind : s.mark_spots.find? (fun m => m.id = f0) with
      | none =>
        simp only [move_mark_spot_backward, hF, hfind] at hg ⊢
        exact hfoc g (hF ▸ hg)
      | some m =>
        have hid : m.id = f0 := by
          have h' : List.find? (fun x => decide (x.id = f0)) s.mark_spots = some m := hfind
          have := List.find?_some h'
          simpa using this
        simp only [move_mark_spot_backward, hF, hfind, Option.some.injEq] at hg
        subst hg
        simp only [move_mark_spot_backward, hF, hfind]
        exact mem_map_id_replace hid (hfoc f0 hF)
  · -- drag_event likewise
    intro g hg
    cases hfind : s.mark_spots.find? (fun m => m.id = fid) with
    | none =>
      simp only [drag_event, hfind] at hg ⊢
      exact hfoc g hg
    | some m =>
      cases hnear : find_nearest_data_point toScene
          [⟨m.data_point.plot_data_item, getData m.data_point.plot_data_item⟩] pos (-1) with
      | none =>
        simp only [drag_event, hfind, hnear] at hg ⊢
        exact hfoc g hg
      | some nd =>
        have hid : m.id = fid := by
          have h' : List.find? (fun x => decide (x.id = fid)) s.mark_spots = some m := hfind
          have := List.find?_some h'
          simpa using this
        simp only [drag_event, hfind, hnear] at hg ⊢
        exact mem_map_id_replace hid (hfoc g hg)

/-- C10, witness: the amended preservation at a concrete invariant-satisfying
state. -/
theorem claim_C10_witness :
    markInvariant (⟨[⟨0, ⟨0, 0, 2⟩⟩], some 0, 1⟩ : MarkSpotsState) ∧
    (markInvariant (update_mark_spot ⟨[⟨0, ⟨0, 0, 2⟩⟩], some 0, 1⟩ (some ⟨0, 1, 2⟩)).1 ∧
    markInvariant (discard_mark_spot ⟨[⟨0, ⟨0, 0, 2⟩⟩], some 0, 1⟩ (some ⟨0, 1, 2⟩)).1 ∧
    markInvariant (clear_mark_spot ⟨[⟨0, ⟨0, 0, 2⟩⟩], some 0, 1⟩).1 ∧
    (∀ g, (move_mark_spot_forward ⟨[⟨0, ⟨0, 0, 2⟩⟩], some 0, 1⟩).in_focus = some g →
      g ∈ (move_mark_spot_forward ⟨[⟨0, ⟨0, 0, 2⟩⟩], some 0, 1⟩).mark_spots.map
        (fun m => m.id)) ∧
    (∀ g, (move_mark_spot_backward ⟨[⟨0, ⟨0, 0, 2⟩⟩], some 0, 1⟩).in_focus = some g →
      g ∈ (move_mark_spot_backward ⟨[⟨0, ⟨0, 0, 2⟩⟩], some 0, 1⟩).mark_spots.map
        (fun m => m.id)) ∧
    (∀ g, (drag_event id (fun _ => none) ⟨[⟨0, ⟨0, 0, 2⟩⟩], some 0, 1⟩ 0 ⟨0, 0⟩).in_focus
        = some g →
      g ∈ (drag_event id (fun _ => none) ⟨[⟨0, ⟨0, 0, 2⟩⟩], some 0, 1⟩ 0 ⟨0, 0⟩).mark_spots.map
        (fun m => m.id))) := by
  have hinv : markInvariant (⟨[⟨0, ⟨0, 0, 2⟩⟩], some 0, 1⟩ : MarkSpotsState) := by
    refine ⟨by decide, ?_⟩
    intro fid h
    simp only [Option.some.injEq] at h
    subst h
    decide
  exact ⟨hinv, claim_C10_invariant id (fun _ => none) _ (some ⟨0, 1, 2⟩) 0 ⟨0, 0⟩ hinv⟩

/-- With a nonnegative threshold the running-minimum branch of the loop is
dead (`pixel_dist_threshold < 0` fails), so the loop is the first-accept
scan transcribed from the spec. -/
lemma findNearestGo_nonneg (toScene : Pt → Pt) (q : Pt) (thr : ℚ) (hthr : 0 ≤ thr)
    (items : List Series) :
    findNearestGo toScene q thr items none =
      specFirstWithinThreshold toScene q thr items := by
  induction items with
  | nil => rfl
  | cons s rest ih =>
    have hnotlt : ¬ thr < 0 := not_lt.mpr hthr
    cases hd : s.data with
    | none =>
      simp only [findNearestGo, specFirstWithinThreshold, List.findSome?_cons, hd]
      exact ih
    | some pts =>
      by_cases hin : sqrt_lt (candOf toScene q s pts).1 thr
      · simp [findNearestGo, specFirstWithinThreshold, List.findSome?_cons, hd, hin, hnotlt]
      · simp only [findNearestGo, specFirstWithinThreshold, List.findSome?_cons, hd,
          if_neg hin, if_neg (by simp [hnotlt] : ¬(thr < 0 ∧ ltRunningMin (candOf toScene q s pts).1 none))]
        exact ih

/-- C1: with a threshold ≥ 0 (and every present series nonempty, where the
code is defined), `_find_nearest_data_point` equals the spec's first-accept
scan: it returns the first candidate in series iteration order whose pixel
distance is strictly below the threshold, and it returns `None` iff no
searched series' candidate (its data-space nearest sample found by the
KD-tree) lies within the threshold. -/
theorem claim_C1_first_accept (toScene : Pt → Pt) (items : List Series) (q : Pt)
    (thr : ℚ) (hthr : 0 ≤ thr)
    (hne : ∀ s ∈ items, ∀ pts, s.data = some pts → pts ≠ []) :
    find_nearest_data_point toScene items q thr =
      specFirstWithinThreshold toScene q thr items ∧
    (find_nearest_data_point toScene items q thr = none ↔
      ∀ s ∈ items, ∀ pts, s.data = some pts →
        ¬ sqrt_lt (candOf toScene q s pts).1 thr) := by
  have heq : find_nearest_data_point toScene items q thr =
      specFirstWithinThreshold toScene q thr items :=
    findNearestGo_nonneg toScene q thr hthr items
  refine ⟨heq, ?_⟩
  rw [heq, specFirstWithinThreshold, List.findSome?_eq_none_iff]
  constructor
  · intro h s hs pts hpts hlt
    have := h s hs
    rw [hpts] at this
    simp only [hlt, if_true] at this
    exact Option.noConfusion this
  · intro h s hs
    cases hd : s.data with
    | none => simp
    | some pts =>
      have := h s hs pts hd
      simp [this]

/-- C1, witness: two single-point series, identity mapper, threshold 20; the
first-accept scan picks the first series within the threshold. -/
theorem claim_C1_witness :
    ((0 : ℚ) ≤ 20) ∧
    (∀ s ∈ ([⟨0, some [⟨5, 0⟩]⟩, ⟨1, some [⟨1, 0⟩]⟩] : List Series),
      ∀ pts, s.data = some pts → pts ≠ []) ∧
    (find_nearest_data_point id [⟨0, some [⟨5, 0⟩]⟩, ⟨1, some [⟨1, 0⟩]⟩] ⟨0, 0⟩ 20 =
      specFirstWithinThreshold id ⟨0, 0⟩ 20 [⟨0, some [⟨5, 0⟩]⟩, ⟨1, some [⟨1, 0⟩]⟩] ∧
    (find_nearest_data_point id [⟨0, some [⟨5, 0⟩]⟩, ⟨1, some [⟨1, 0⟩]⟩] ⟨0, 0⟩ 20 = none ↔
      ∀ s ∈ ([⟨0, some [⟨5, 0⟩]⟩, ⟨1, some [⟨1, 0⟩]⟩] : List Series),
        ∀ pts, s.data = some pts →
          ¬ sqrt_lt (candOf id ⟨0, 0⟩ s pts).1 20)) :=
  ⟨by norm_num, by decide,
    claim_C1_first_accept id [⟨0, some [⟨5, 0⟩]⟩, ⟨1, some [⟨1, 0⟩]⟩] ⟨0, 0⟩ 20
      (by norm_num) (by decide)⟩

/-- Unfolding equation of `minFirst` on a cons when the tail finds nothing. -/
lemma minFirst_cons_of_none (e : ℚ × DataPoint) (l : List (ℚ × DataPoint))
    (h : minFirst l = none) : minFirst (e :: l) = some e := by
  have hb : minFirst (e :: l) =
      (match minFirst l with
        | none => some e
        | some mm => if mm.1 < e.1 then some mm else some e) := rfl
  rw [hb, h]

/-- Unfolding equation of `minFirst` on a cons when the tail finds `m`. -/
lemma minFirst_cons_of_some (e : ℚ × DataPoint) (l : List (ℚ × DataPoint))
    (m : ℚ × DataPoint) (h : minFirst l = some m) :
    minFirst (e :: l) = if m.1 < e.1 then some m else some e := by
  have hb : minFirst (e :: l) =
      (match minFirst l with
        | none => some e
        | some mm => if mm.1 < e.1 then some mm else some e) := rfl
  rw [hb, h]

/-- `minFirst` of a nonempty list is some element no larger than the head. -/
lemma minFirst_cons_some (e : ℚ × DataPoint) (l : List (ℚ × DataPoint)) :
    ∃ m, minFirst (e :: l) = some m ∧ m.1 ≤ e.1 := by
  cases hl : minFirst l with
  | none => exact ⟨e, minFirst_cons_of_none e l hl, le_refl _⟩
  | some m =>
    by_cases h : m.1 < e.1
    · exact ⟨m, by rw [minFirst_cons_of_some e l m hl, if_pos h], le_of_lt h⟩
    · exact ⟨e, by rw [minFirst_cons_of_some e l m hl, if_neg h], le_refl _⟩

/-- A strictly smaller second element makes the head irrelevant. -/
lemma minFirst_cons_cons_of_lt {b c : ℚ × DataPoint} {l : List (ℚ × DataPoint)}
    (h : c.1 < b.1) : minFirst (b :: c :: l) = minFirst (c :: l) := by
  obtain ⟨m, hm, hle⟩ := minFirst_cons_some c l
  rw [minFirst_cons_of_some b (c :: l) m hm, if_pos (lt_of_le_of_lt hle h), hm]

/-- A second element at least as large as the head is irrelevant. -/
lemma minFirst_cons_cons_of_le {b c : ℚ × DataPoint} {l : List (ℚ × DataPoint)}
    (h : b.1 ≤ c.1) : minFirst (b :: c :: l) = minFirst (b :: l) := by
  cases hl : minFirst l with
  | none =>
    rw [minFirst_cons_of_some b (c :: l) c (minFirst_cons_of_none c l hl),
      if_neg (not_lt.mpr h), minFirst_cons_of_none b l hl]
  | some m =>
    by_cases hmc : m.1 < c.1
    · rw [minFirst_cons_of_some b (c :: l) m
        (by rw [minFirst_cons_of_some c l m hl, if_pos hmc]),
        minFirst_cons_of_some b l m hl]
    · rw [minFirst_cons_of_some b (c :: l) c
        (by rw [minFirst_cons_of_some c l m hl, if_neg hmc]),
        if_neg (not_lt.mpr h), minFirst_cons_of_some b l m hl,
        if_neg (not_lt.mpr (le_trans h (not_lt.mp hmc)))]

/-- `minFirst` finds nothing exactly on the empty list. -/
lemma minFirst_eq_none_iff (l : List (ℚ × DataPoint)) :
    minFirst l = none ↔ l = [] := by
  cases l with
  | nil => simp [minFirst]
  | cons e rest =>
    obtain ⟨m, hm, _⟩ := minFirst_cons_some e rest
    simp [hm]

/-- The element found by `minFirst` is minimal in the list. -/
lemma minFirst_min {l : List (ℚ × DataPoint)} {m : ℚ × DataPoint}
    (h : minFirst l = some m) : ∀ e ∈ l, m.1 ≤ e.1 := by
  induction l generalizing m with
  | nil => simp [minFirst] at h
  | cons e rest ih =>
    intro x hx
    cases hr : minFirst rest with
    | none =>
      rw [minFirst_cons_of_none e rest hr] at h
      have hme : m = e := (Option.some.inj h).symm
      subst hme
      rcases List.mem_cons.mp hx with hx | hx
      · exact le_of_eq (congrArg Prod.fst hx.symm)
      · exact absurd (((minFirst_eq_none_iff rest).mp hr) ▸ hx) (List.not_mem_nil x)
    | some m' =>
      rw [minFirst_cons_of_some e rest m' hr] at h
      by_cases hlt : m'.1 < e.1
      · rw [if_pos hlt] at h
        have hm : m = m' := (Option.some.inj h).symm
        subst hm
        rcases List.mem_cons.mp hx with hx | hx
        · subst hx; exact le_of_lt hlt
        · exact ih hr x hx
      · rw [if_neg hlt] at h
        have hm : m = e := (Option.some.inj h).symm
        subst hm
        rcases List.mem_cons.mp hx with hx | hx
        · subst hx; exact le_refl _
        · exact le_trans (not_lt.mp hlt) (ih hr x hx)

/-- The element found by `minFirst` is the first attaining the minimum:
everything before it in the list is strictly larger. -/
lemma minFirst_first {l : List (ℚ × DataPoint)} {m : ℚ × DataPoint}
    (h : minFirst l = some m) :
    ∃ l1 l2, l = l1 ++ m :: l2 ∧ ∀ e ∈ l1, m.1 < e.1 := by
  induction l generalizing m with
  | nil => simp [minFirst] at h
  | cons e rest ih =>
    cases hr : minFirst rest with
    | none =>
      rw [minFirst_cons_of_none e rest hr] at h
      have hme : m = e := (Option.some.inj h).symm
      subst hme
      exact ⟨[], rest, rfl, by simp⟩
    | some m' =>
      rw [minFirst_cons_of_some e rest m' hr] at h
      by_cases hlt : m'.1 < e.1
      · rw [if_pos hlt] at h
        have hm : m = m' := (Option.some.inj h).symm
        subst hm
        obtain ⟨l1, l2, hsplit, hgt⟩ := ih hr
        refine ⟨e :: l1, l2, by rw [hsplit]; rfl, ?_⟩
        intro x hx
        rcases List.mem_cons.mp hx with hx | hx
        · exact hx ▸ hlt
        · exact hgt x hx
      · rw [if_neg hlt] at h
        have hm : m = e := (Option.some.inj h).symm
        subst hm
        exact ⟨[], rest, rfl, by simp⟩

/-- With a negative threshold the accept branch of the loop is dead
(`√d < thr` fails), and the loop computes the earliest strict running
minimum of the candidate list, starting from the accumulator. -/
lemma findNearestGo_neg (toScene : Pt → Pt) (q : Pt) (thr : ℚ) (hthr : thr < 0)
    (items : List Series) :
    ∀ best : Option (ℚ × DataPoint),
      findNearestGo toScene q thr items best =
        (minFirst (best.toList ++ candList toScene q items)).map Prod.snd := by
  induction items with
  | nil =>
    intro best
    cases best <;> simp [findNearestGo, candList, minFirst]
  | cons s rest ih =>
    intro best
    cases hd : s.data with
    | none =>
      have hcl : candList toScene q (s :: rest) = candList toScene q rest := by
        simp [candList, hd]
      rw [hcl]
      simp only [findNearestGo, hd]
      exact ih best
    | some pts =>
      have hcl : candList toScene q (s :: rest) =
          candOf toScene q s pts :: candList toScene q rest := by
        simp [candList, hd]
      have hnoacc : ¬ sqrt_lt (candOf toScene q s pts).1 thr := by
        intro hc
        exact absurd (lt_trans hc.1 hthr) (lt_irrefl 0)
      rw [hcl]
      cases best with
      | none =>
        have hcond : thr < 0 ∧ ltRunningMin (candOf toScene q s pts).1 none :=
          ⟨hthr, trivial⟩
        simp only [findNearestGo, hd, if_pos hcond]
        rw [ih (some (candOf toScene q s pts))]
        simp only [Option.toList, List.singleton_append, List.nil_append]
      | some b =>
        by_cases hcb : (candOf toScene q s pts).1 < b.1
        · have hcond : thr < 0 ∧ ltRunningMin (candOf toScene q s pts).1 (some b) :=
            ⟨hthr, hcb⟩
          simp only [findNearestGo, hd, if_pos hcond]
          rw [ih (some (candOf toScene q s pts))]
          simp only [Option.toList, List.singleton_append]
          rw [minFirst_cons_cons_of_lt hcb]
        · have hcond : ¬ (thr < 0 ∧ ltRunningMin (candOf toScene q s pts).1 (some b)) := by
            intro hc
            exact hcb hc.2
          simp only [findNearestGo, hd, if_neg hcond, if_neg hnoacc]
          rw [ih (some b)]
          simp only [Option.toList, List.singleton_append]
          rw [minFirst_cons_cons_of_le (not_lt.mp hcb)]

/-- C2, counterexample: two single-point series at pixel distance exactly 1
from the query under the identity mapper.  Exchanging the series iteration
order changes which sample the threshold<0 query returns, so the result is
not invariant to series iteration order (ties are broken by iteration
order). -/
theorem claim_C2_counterexample :
    find_nearest_data_point id [⟨0, some [⟨1, 0⟩]⟩, ⟨1, some [⟨-1, 0⟩]⟩] ⟨0, 0⟩ (-1) =
      some ⟨0, 0, 1⟩ ∧
    find_nearest_data_point id [⟨1, some [⟨-1, 0⟩]⟩, ⟨0, some [⟨1, 0⟩]⟩] ⟨0, 0⟩ (-1) =
      some ⟨1, 0, 1⟩ ∧
    (⟨0, 0, 1⟩ : DataPoint) ≠ ⟨1, 0, 1⟩ := by
  refine ⟨?_, ?_, by decide⟩ <;>
    norm_num [find_nearest_data_point, findNearestGo, candOf, kdQueryIdx, argminIdx,
      pixSqDist, sqDist, ltRunningMin, sqrt_lt, List.getD]

/-- C2 (amended): with a negative threshold (and every present series
nonempty), the query returns `None` iff every series is skipped for missing
data; otherwise it returns the first-encountered candidate (each series'
data-space nearest sample found by the KD-tree) whose pixel distance attains
the minimum over all searched series' candidates — ties across series are
broken in favour of the earlier series in iteration order, so the result is
invariant to iteration order only when the minimum is uniquely attained. -/
theorem claim_C2_running_min (toScene : Pt → Pt) (items : List Series) (q : Pt)
    (thr : ℚ) (hthr : thr < 0)
    (hne : ∀ s ∈ items, ∀ pts, s.data = some pts → pts ≠ []) :
    (find_nearest_data_point toScene items q thr = none ↔
      candList toScene q items = []) ∧
    ∀ dp, find_nearest_data_point toScene items q thr = some dp →
      ∃ d l1 l2, candList toScene q items = l1 ++ (d, dp) :: l2 ∧
        (∀ e ∈ candList toScene q items, d ≤ e.1) ∧
        (∀ e ∈ l1, d < e.1) := by
  have heq : find_nearest_data_point toScene items q thr =
      (minFirst (candList toScene q items)).map Prod.snd := by
    simpa using findNearestGo_neg toScene q thr hthr items none
  constructor
  · rw [heq]
    rw [Option.map_eq_none']
    exact minFirst_eq_none_iff _
  · intro dp hdp
    rw [heq] at hdp
    cases hm : minFirst (candList toScene q items) with
    | none => rw [hm] at hdp; exact Option.noConfusion hdp
    | some m =>
      rw [hm] at hdp
      simp only [Option.map_some'] at hdp
      have hdp' : m.2 = dp := Option.some.inj hdp
      obtain ⟨l1, l2, hsplit, hgt⟩ := minFirst_first hm
      refine ⟨m.1, l1, l2, ?_, minFirst_min hm, hgt⟩
      rw [hsplit, ← hdp']

/-- C2, witness: two single-point series with a unique pixel minimum; the
returned sample attains it and everything earlier is strictly farther. -/
theorem claim_C2_witness :
    ((-1 : ℚ) < 0) ∧
    (∀ s ∈ ([⟨0, some [⟨5, 0⟩]⟩, ⟨1, some [⟨1, 0⟩]⟩] : List Series),
      ∀ pts, s.data = some pts → pts ≠ []) ∧
    ((find_nearest_data_point id [⟨0, some [⟨5, 0⟩]⟩, ⟨1, some [⟨1, 0⟩]⟩] ⟨0, 0⟩ (-1) = none ↔
      candList id ⟨0, 0⟩ [⟨0, some [⟨5, 0⟩]⟩, ⟨1, some [⟨1, 0⟩]⟩] = []) ∧
    ∀ dp, find_nearest_data_point id [⟨0, some [⟨5, 0⟩]⟩, ⟨1, some [⟨1, 0⟩]⟩] ⟨0, 0⟩ (-1) =
        some dp →
      ∃ d l1 l2, candList id ⟨0, 0⟩ [⟨0, some [⟨5, 0⟩]⟩, ⟨1, some [⟨1, 0⟩]⟩] =
          l1 ++ (d, dp) :: l2 ∧
        (∀ e ∈ candList id ⟨0, 0⟩ [⟨0, some [⟨5, 0⟩]⟩, ⟨1, some [⟨1, 0⟩]⟩], d ≤ e.1) ∧
        (∀ e ∈ l1, d < e.1)) :=
  ⟨by norm_num, by decide,
    claim_C2_running_min id [⟨0, some [⟨5, 0⟩]⟩, ⟨1, some [⟨1, 0⟩]⟩] ⟨0, 0⟩ (-1)
      (by norm_num) (by decide)⟩

/-- Unfolding equation of `argminIdx` on a list of at least two elements. -/
lemma argminIdx_cons_cons (v w : ℚ) (rs : List ℚ) :
    argminIdx (v :: w :: rs) =
      if (w :: rs).getD (argminIdx (w :: rs)) 0 < v then argminIdx (w :: rs) + 1
      else 0 := rfl

/-- `np.argmin` of a nonempty list is a valid index. -/
lemma argminIdx_lt (l : List ℚ) (h : l ≠ []) : argminIdx l < l.length := by
  induction l with
  | nil => exact absurd rfl h
  | cons v rest ih =>
    cases rest with
    | nil => simp [argminIdx]
    | cons w rs =>
      rw [argminIdx_cons_cons]
      by_cases hlt : (w :: rs).getD (argminIdx (w :: rs)) 0 < v
      · rw [if_pos hlt]
        simpa using Nat.succ_lt_succ (ih (by simp))
      · rw [if_neg hlt]
        simp

/-- The element at `np.argmin` is minimal. -/
lemma argminIdx_le (l : List ℚ) : ∀ i, i < l.length → l.getD (argminIdx l) 0 ≤ l.getD i 0 := by
  induction l with
  | nil => intro i hi; simp at hi
  | cons v rest ih =>
    intro i hi
    cases rest with
    | nil =>
      have hi0 : i = 0 := by
        simp only [List.length_cons, List.length_nil] at hi
        omega
      subst hi0
      simp [argminIdx]
    | cons w rs =>
      rw [argminIdx_cons_cons]
      by_cases hlt : (w :: rs).getD (argminIdx (w :: rs)) 0 < v
      · rw [if_pos hlt, List.getD_cons_succ]
        cases i with
        | zero => rw [List.getD_cons_zero]; exact le_of_lt hlt
        | succ j =>
          rw [List.getD_cons_succ]
          exact ih j (by simpa using hi)
      · rw [if_neg hlt, List.getD_cons_zero]
        cases i with
        | zero => rw [List.getD_cons_zero]
        | succ j =>
          rw [List.getD_cons_succ]
          exact le_trans (not_lt.mp hlt) (ih j (by simpa using hi))

/-- For a nonempty segment table, `_query_nearest_point` returns one of the
per-segment projected points, of minimal squared data-space distance among
them. -/
lemma query_nearest_point_mem_min (segs : List Seg) (q : Pt) (hne : segs ≠ []) :
    query_nearest_point (Precomputed.segments segs) q ∈
      segs.map (fun s => projOnSeg s q) ∧
    ∀ p' ∈ segs.map (fun s => projOnSeg s q),
      sqDist (query_nearest_point (Precomputed.segments segs) q) q ≤ sqDist p' q := by
  have hq : query_nearest_point (Precomputed.segments segs) q =
      (segs.map (fun s => projOnSeg s q)).getD
        (argminIdx ((segs.map (fun s => projOnSeg s q)).map (fun p => sqDist p q)))
        ⟨0, 0⟩ := rfl
  have hpsne : segs.map (fun s => projOnSeg s q) ≠ [] := by
    simpa [List.map_eq_nil_iff] using hne
  have hd2ne : (segs.map (fun s => projOnSeg s q)).map (fun p => sqDist p q) ≠ [] := by
    simpa [List.map_eq_nil_iff] using hpsne
  have hlen : ((segs.map (fun s => projOnSeg s q)).map (fun p => sqDist p q)).length =
      (segs.map (fun s => projOnSeg s q)).length := by simp
  have hklt := argminIdx_lt _ hd2ne
  have hk : argminIdx ((segs.map (fun s => projOnSeg s q)).map (fun p => sqDist p q)) <
      (segs.map (fun s => projOnSeg s q)).length := hlen ▸ hklt
  constructor
  · rw [hq, List.getD_eq_getElem _ _ hk]
    exact List.getElem_mem hk
  · intro p' hp'
    obtain ⟨i, hi, hip⟩ := List.mem_iff_getElem.mp hp'
    have h1 : sqDist (query_nearest_point (Precomputed.segments segs) q) q =
        ((segs.map (fun s => projOnSeg s q)).map (fun p => sqDist p q)).getD
          (argminIdx ((segs.map (fun s => projOnSeg s q)).map (fun p => sqDist p q))) 0 := by
      rw [hq, List.getD_eq_getElem _ _ hk, List.getD_eq_getElem _ _ hklt]
      simp only [List.getElem_map]
    have h2 : sqDist p' q =
        ((segs.map (fun s => projOnSeg s q)).map (fun p => sqDist p q)).getD i 0 := by
      rw [List.getD_eq_getElem _ _ (by simpa using hi), List.getElem_map, hip]
    rw [h1, h2]
    exact argminIdx_le _ i (by simpa using hi)

/-- C3, counterexample: a two-point polyline whose single segment has true
squared length 10⁻¹⁴ < 10⁻¹² triggers the code's degeneracy clamp
(`len_sq[len_sq < 1e-12] = 1.0`), so for query (1, 0) the code projects to
(10⁻¹⁴, 0) while the claim's unclamped formula t = dot/lenSq gives
(10⁻⁷, 0): the claimed per-segment formula does not hold for every
polyline. -/
theorem claim_C3_counterexample :
    query_nearest_point (precompute_polyline [⟨0, 0⟩, ⟨1 / 10000000, 0⟩]) ⟨1, 0⟩ =
      ⟨1 / 100000000000000, 0⟩ ∧
    specNearestPointOfClaim [⟨0, 0⟩, ⟨1 / 10000000, 0⟩] ⟨1, 0⟩ = ⟨1 / 10000000, 0⟩ ∧
    (⟨1 / 100000000000000, 0⟩ : Pt) ≠ ⟨1 / 10000000, 0⟩ := by
  refine ⟨?_, ?_, ?_⟩
  · norm_num [query_nearest_point, precompute_polyline, mkSeg, projOnSeg, argminIdx,
      sqDist, List.getD]
  · norm_num [specNearestPointOfClaim, specSegOfClaim, projOnSeg, argminIdx,
      sqDist, List.getD]
  · intro h
    rw [Pt.mk.injEq] at h
    exact absurd h.1 (by norm_num)

/-- C3 (amended): for every polyline with at least two points, the nearest
point-on-curve is computed per segment as t = clamp(dot(query − start,
dir)/lenSq', 0, 1), projected point = start + t·dir, where lenSq' is the
squared segment length replaced by 1 when it is below 10⁻¹² (the code's
degeneracy clamp), taking a segment of minimal squared data-space distance;
in particular for the series [(0,0),(10,0)], query (5,1) projects to (5,0),
query (-5,1) to (0,0) (t clamped to 0), and query (15,1) to (10,0)
(t clamped to 1). -/
theorem claim_C3_projection (pts : List Pt) (q : Pt) (h2 : 2 ≤ pts.length) :
    (query_nearest_point (precompute_polyline pts) q ∈ projections pts q ∧
     ∀ p' ∈ projections pts q,
       sqDist (query_nearest_point (precompute_polyline pts) q) q ≤ sqDist p' q) ∧
    query_nearest_point (precompute_polyline [⟨0, 0⟩, ⟨10, 0⟩]) ⟨5, 1⟩ = ⟨5, 0⟩ ∧
    query_nearest_point (precompute_polyline [⟨0, 0⟩, ⟨10, 0⟩]) ⟨-5, 1⟩ = ⟨0, 0⟩ ∧
    query_nearest_point (precompute_polyline [⟨0, 0⟩, ⟨10, 0⟩]) ⟨15, 1⟩ = ⟨10, 0⟩ := by
  refine ⟨?_, ?_, ?_, ?_⟩
  · cases pts with
    | nil => simp at h2
    | cons a tl =>
      cases tl with
      | nil => simp at h2
      | cons b rs =>
        have hpre : precompute_polyline (a :: b :: rs) =
            Precomputed.segments
              (List.zipWith mkSeg (a :: b :: rs) (a :: b :: rs).tail) := rfl
        have hsegne : List.zipWith mkSeg (a :: b :: rs) (a :: b :: rs).tail ≠ [] := by
          simp [List.zipWith]
        have hmain := query_nearest_point_mem_min
          (List.zipWith mkSeg (a :: b :: rs) (a :: b :: rs).tail) q hsegne
        rw [hpre]
        exact hmain
  · norm_num [query_nearest_point, precompute_polyline, mkSeg, projOnSeg, argminIdx,
      sqDist, List.getD]
  · norm_num [query_nearest_point, precompute_polyline, mkSeg, projOnSeg, argminIdx,
      sqDist, List.getD]
  · norm_num [query_nearest_point, precompute_polyline, mkSeg, projOnSeg, argminIdx,
      sqDist, List.getD]

/-- C3, witness: the per-segment minimality at the concrete two-point
series. -/
theorem claim_C3_witness :
    2 ≤ ([⟨0, 0⟩, ⟨10, 0⟩] : List Pt).length ∧
    ((query_nearest_point (precompute_polyline [⟨0, 0⟩, ⟨10, 0⟩]) ⟨5, 1⟩ ∈
        projections [⟨0, 0⟩, ⟨10, 0⟩] ⟨5, 1⟩ ∧
      ∀ p' ∈ projections [⟨0, 0⟩, ⟨10, 0⟩] ⟨5, 1⟩,
        sqDist (query_nearest_point (precompute_polyline [⟨0, 0⟩, ⟨10, 0⟩]) ⟨5, 1⟩) ⟨5, 1⟩ ≤
          sqDist p' ⟨5, 1⟩) ∧
    query_nearest_point (precompute_polyline [⟨0, 0⟩, ⟨10, 0⟩]) ⟨5, 1⟩ = ⟨5, 0⟩ ∧
    query_nearest_point (precompute_polyline [⟨0, 0⟩, ⟨10, 0⟩]) ⟨-5, 1⟩ = ⟨0, 0⟩ ∧
    query_nearest_point (precompute_polyline [⟨0, 0⟩, ⟨10, 0⟩]) ⟨15, 1⟩ = ⟨10, 0⟩) :=
  ⟨by decide, claim_C3_projection [⟨0, 0⟩, ⟨10, 0⟩] ⟨5, 1⟩ (by decide)⟩

end FigViewer
